import Mathlib

set_option maxRecDepth 100000

/-!
Shallow embedding of the Neopixel_Animations engine: the four frame
generators of src/animations.rs (nmPulse, nmSnake, nmWave, nmSin) and the
mode-selecting control loop of src/main.rs.

Modelling conventions:
* u8 / usize machine integers become Nat; wrapping u8 arithmetic is made
  explicit through addU8 / subU8 / mulU8 (x % 256).  usize values in the
  generators (row, col, shadows, table entries) stay below their bounds on
  every reachable state, so plain Nat arithmetic is used for them, with
  Nat subtraction matching the source's `-=` at the call sites where the
  operand order makes underflow impossible.
* the f32 sine sampling in nmSin::new is modelled by exact real
  arithmetic (sinSpecValue below); the sampled integers all sit far from
  rounding boundaries, so the idealisation is robust.
* the 64-pixel strip is a List RGB8; the source's `for (idx, px) in
  strip.iter_mut().enumerate()` loops become index-carrying recursions or
  mapIdx, preserving the exact per-index write pattern.
-/

def WIDTH : Nat := 8
def HEIGHT : Nat := 8
def NUM_PX : Nat := WIDTH * HEIGHT

/-- smart_leds RGB8: three 8-bit channels (r, g, b). -/
structure RGB8 where
  r : Nat
  g : Nat
  b : Nat
deriving DecidableEq, Repr

def RGB8.new (r g b : Nat) : RGB8 := ⟨r, g, b⟩

/-- wrapping u8 addition -/
def addU8 (a b : Nat) : Nat := (a + b) % 256

/-- wrapping u8 subtraction (faithful for a < 256) -/
def subU8 (a b : Nat) : Nat := (a + 256 - b % 256) % 256

/-- wrapping u8 multiplication -/
def mulU8 (a b : Nat) : Nat := a * b % 256

/-! ## Pulse generator (animations.rs lines 11-58) -/

structure nmPulse where
  strip : List RGB8
  color : RGB8
  px_counter : Nat
  descending : Bool
  step_size : Nat
  brightness : Nat
deriving DecidableEq, Repr

def nmPulse.new (brightness step_size : Nat) : nmPulse :=
  { strip := List.replicate NUM_PX (RGB8.new 0 0 0)
    color := RGB8.new brightness brightness brightness
    px_counter := 0
    descending := false
    step_size := step_size
    brightness := brightness }

def nmPulse.set (s : nmPulse) (color : RGB8) : nmPulse :=
  { s with strip := s.strip.map (fun _ => color) }

def nmPulse.to_list (s : nmPulse) : List RGB8 := s.strip

def nmPulse.next (s : nmPulse) : nmPulse :=
  let descending :=
    if s.px_counter ≤ 1 then false
    else if s.px_counter ≥ s.brightness then true
    else s.descending
  let px_counter :=
    if descending then subU8 s.px_counter s.step_size
    else addU8 s.px_counter s.step_size
  nmPulse.set { s with descending := descending, px_counter := px_counter }
    (RGB8.new px_counter px_counter px_counter)

/-! ## Snake generator (animations.rs lines 62-112).
`row` is the primary coordinate, `col` the secondary one;
the lit linear index is `col*WIDTH + row`. -/

structure nmSnake where
  strip : List RGB8
  color : RGB8
  delta : Bool
  row : Nat
  col : Nat
deriving DecidableEq, Repr

def nmSnake.new (color : RGB8) : nmSnake :=
  { strip := List.replicate NUM_PX (RGB8.new 0 0 0)
    color := color
    delta := true
    row := 0
    col := 0 }

def nmSnake.set (s : nmSnake) : nmSnake :=
  { s with strip := s.strip.mapIdx (fun idx _px =>
      if idx = s.col * WIDTH + s.row then s.color else RGB8.new 0 0 0) }

def nmSnake.to_list (s : nmSnake) : List RGB8 := s.strip

def nmSnake.next (s : nmSnake) : nmSnake :=
  let dc :=
    if s.row = WIDTH - 1 then (false, (s.col + 1) % 8)
    else if s.row = 0 then (true, (s.col + 1) % 8)
    else (s.delta, s.col)
  let row := if dc.1 then s.row + 1 else s.row - 1
  nmSnake.set { s with delta := dc.1, row := row, col := dc.2 }

/-! ## Wave generator (animations.rs lines 116-195) -/

def NUM_SHADOWS : Nat := 7

structure nmWave where
  strip : List RGB8
  color : RGB8
  row : Nat
  shadows : List Nat
deriving DecidableEq, Repr

def nmWave.new (color : RGB8) : nmWave :=
  { strip := List.replicate NUM_PX (RGB8.new 0 0 0)
    color := color
    row := NUM_SHADOWS
    shadows := (List.range NUM_SHADOWS).map (fun i => NUM_SHADOWS - 1 - i) }

/-- the scanning loop of nmWave::set: idx runs over the strip, col counts
matches; the pixel at idx is recolored when idx = col*WIDTH + row. -/
def waveSetGo (color : RGB8) (row : Nat) : Nat → Nat → List RGB8 → List RGB8
  | _, _, [] => []
  | idx, col, px :: rest =>
    if idx = col * WIDTH + row then
      color :: waveSetGo color row (idx + 1) (col + 1) rest
    else
      px :: waveSetGo color row (idx + 1) col rest

def nmWave.set (s : nmWave) (row : Nat) (color : RGB8) : nmWave :=
  { s with strip := waveSetGo color row 0 0 s.strip }

def nmWave.clear (s : nmWave) : nmWave :=
  { s with strip := s.strip.map (fun _ => RGB8.new 0 0 0) }

def nmWave.to_list (s : nmWave) : List RGB8 := s.strip

/-- one channel of the shadow dimming:
`channel - channel/intensity_step*((i+1) as u8) + 1` with
intensity_step = NUM_SHADOWS = 7, in u8 arithmetic. -/
def dimChannel (c i : Nat) : Nat :=
  addU8 (subU8 c (mulU8 (c / NUM_SHADOWS) ((i + 1) % 256))) 1

def dimmedColor (c : RGB8) (i : Nat) : RGB8 :=
  ⟨dimChannel c.r i, dimChannel c.g i, dimChannel c.b i⟩

/-- the shadow loop of nmWave::next: for each i, shadows[i] is advanced by
1 mod WIDTH and its line is drawn with the color dimmed by tier i. -/
def nmWave.shadowLoop : Nat → List Nat → nmWave → (List Nat × nmWave)
  | _, [], s => ([], s)
  | i, sh :: rest, s =>
    let sh2 := (sh + 1) % WIDTH
    let s2 := s.set sh2 (dimmedColor s.color i)
    let r := nmWave.shadowLoop (i + 1) rest s2
    (sh2 :: r.1, r.2)

def nmWave.next (s : nmWave) : nmWave :=
  let s1 := { s with row := (s.row + 1) % WIDTH }
  let s2 := s1.clear
  let s3 := s2.set s2.row s2.color
  let r := nmWave.shadowLoop 0 s3.shadows s3
  { r.2 with shadows := r.1 }

/-! ## Sine generator (animations.rs lines 198-280) -/

def SIN_SIZE : Nat := 14 * WIDTH / 8

/-- the 14-entry table computed once by nmSin::new as
`round(4*sin(i*2pi/14)+4)` in f32; certified entry by entry against the
exact real-valued formula in theorem c4_sin_table_values. -/
def sinInitTable : List Nat := [4, 6, 7, 8, 8, 7, 6, 4, 2, 1, 0, 0, 1, 2]

structure nmSin where
  strip : List RGB8
  color : RGB8
  window : List Nat
  sin : List Nat
deriving DecidableEq, Repr

def nmSin.new (color : RGB8) : nmSin :=
  { strip := List.replicate NUM_PX (RGB8.new 0 0 0)
    color := color
    window := (List.range WIDTH).map (fun i => sinInitTable.getD i 0)
    sin := sinInitTable }

/-- the scanning loop of nmSin::set_row_height: the pixel at
idx = col*WIDTH + row is colored and col advances while col < height. -/
def setRowHeightGo (color : RGB8) (row height : Nat) :
    Nat → Nat → List RGB8 → List RGB8
  | _, _, [] => []
  | idx, col, px :: rest =>
    if idx = col * WIDTH + row then
      color :: setRowHeightGo color row height (idx + 1)
        (if col < height then col + 1 else col) rest
    else
      px :: setRowHeightGo color row height (idx + 1) col rest

def nmSin.set_row_height (s : nmSin) (row height : Nat) : nmSin :=
  { s with strip := setRowHeightGo s.color row height 0 0 s.strip }

def nmSin.clear (s : nmSin) : nmSin :=
  { s with strip := s.strip.map (fun _ => RGB8.new 0 0 0) }

def nmSin.to_list (s : nmSin) : List RGB8 := s.strip

def nmSin.next (s : nmSin) : nmSin :=
  let s1 := s.clear
  let s2 := (List.range WIDTH).foldl
    (fun t i =>
      if t.window.getD i 0 ≠ 0 then t.set_row_height i (t.window.getD i 0 - 1)
      else t) s1
  let sin2 := (List.range SIN_SIZE).foldl
    (fun a i => a.set i (a.getD ((i + 1) % SIN_SIZE) 0)) s2.sin
  let window2 := (List.range WIDTH).map (fun i => sin2.getD i 0)
  { s2 with sin := sin2, window := window2 }

/-! ## Iterated generator states, with the construction parameters used by
main.rs lines 100-103. -/

def pulseIter (n : Nat) : nmPulse := nmPulse.next^[n] (nmPulse.new 10 1)
def snakeIter (n : Nat) : nmSnake := nmSnake.next^[n] (nmSnake.new (RGB8.new 255 0 0))
def waveIter (n : Nat) : nmWave := nmWave.next^[n] (nmWave.new (RGB8.new 0 0 50))
def sinIter (n : Nat) : nmSin := nmSin.next^[n] (nmSin.new (RGB8.new 0 30 0))

/-! ## Mode selector and controller (main.rs lines 99-155).
The f32 accelerometer reading and the 0.8 threshold are modelled over ℚ;
the readings of interest are exactly representable and none sits on a
threshold boundary. -/

/-- one normalized accelerometer reading (x, y, z). -/
structure Vec3 where
  x : ℚ
  y : ℚ
  z : ℚ

def THRESH : ℚ := 8 / 10

/-- the orientation-to-mode branch of the control loop
(main.rs lines 117-128): sticky when no axis crosses the threshold. -/
def updateMode (mode : Nat) (a : Vec3) : Nat :=
  if a.x > THRESH then 0
  else if a.x < -THRESH then 1
  else if a.y > THRESH then 2
  else if a.y < -THRESH then 3
  else mode

structure ControllerState where
  nticks : Nat
  mode : Nat
  pulse : nmPulse
  snake : nmSnake
  wave : nmWave
  sinGen : nmSin

/-- startup state: nticks = 9, mode = 5 (blank sentinel), generators
constructed with the parameters of main.rs lines 100-103. -/
def controllerInit : ControllerState :=
  { nticks := 9
    mode := 5
    pulse := nmPulse.new 10 1
    snake := nmSnake.new (RGB8.new 255 0 0)
    wave := nmWave.new (RGB8.new 0 0 50)
    sinGen := nmSin.new (RGB8.new 0 30 0) }

/-- the grid handed to the pixel sink for a given mode
(main.rs lines 140-146). -/
def selectFrame (mode : Nat) (pulse : nmPulse) (snake : nmSnake)
    (wave : nmWave) (sinGen : nmSin) : List RGB8 :=
  match mode with
  | 0 => wave.to_list
  | 1 => pulse.to_list
  | 2 => sinGen.to_list
  | 3 => snake.to_list
  | _ => List.replicate NUM_PX (RGB8.new 0 0 0)

/-- one control-loop iteration: mode update from the reading, then, when
nticks > 8, a render step (advance all four generators, select the visible
grid, emit it) with nticks reset; nticks += 1 at the end either way.
Returns the new state and the frame written (none on non-render
iterations). -/
def controllerStep (s : ControllerState) (a : Vec3) :
    ControllerState × Option (List RGB8) :=
  let mode := updateMode s.mode a
  if s.nticks > 8 then
    let pulse := s.pulse.next
    let snake := s.snake.next
    let wave := s.wave.next
    let sinGen := s.sinGen.next
    let ds := selectFrame mode pulse snake wave sinGen
    (⟨0 + 1, mode, pulse, snake, wave, sinGen⟩, some ds)
  else
    (⟨s.nticks + 1, mode, s.pulse, s.snake, s.wave, s.sinGen⟩, none)

/-- controller state after n iterations driven by the reading stream. -/
def controllerRun (inputs : Nat → Vec3) : Nat → ControllerState
  | 0 => controllerInit
  | n + 1 => (controllerStep (controllerRun inputs n) (inputs n)).1

/-- the frame written (if any) during iteration n+1. -/
def controllerEmit (inputs : Nat → Vec3) (n : Nat) : Option (List RGB8) :=
  (controllerStep (controllerRun inputs n) (inputs n)).2

/-- the (primary, secondary) coordinates of the single lit snake pixel
after n advances. -/
def snakePos (n : Nat) : Nat × Nat := ((snakeIter n).row, (snakeIter n).col)

/-! ## Generic periodicity helpers for iterated generator states -/

lemma iterate_add_periodic {α : Type} (f : α → α) (x : α) (a b : Nat)
    (h : f^[a] x = f^[b] x) : ∀ n, f^[n + a] x = f^[n + b] x := by
  intro n
  induction n with
  | zero => simpa using h
  | succ m ih =>
    rw [Nat.succ_add, Nat.succ_add, Function.iterate_succ_apply',
      Function.iterate_succ_apply', ih]

lemma iterate_cycle {α : Type} (f : α → α) (x : α) (p k : Nat)
    (h : f^[k + p] x = f^[k] x) : ∀ q r, f^[p * q + r + k] x = f^[r + k] x := by
  intro q
  induction q with
  | zero => intro r; simp
  | succ m ih =>
    intro r
    have e : p * (m + 1) + r + k = p * m + r + (k + p) := by ring
    rw [e, iterate_add_periodic f x (k + p) k h (p * m + r)]
    exact ih r

/-! ## Claims about the Snake generator -/

/-- Claim C2, counterexample: over 64 consecutive advances from the start
state the lit pixel does NOT visit every (primary, secondary) pair exactly
once — the pair (1, 1) is visited twice (at advances 1 and 57). -/
theorem c2_counterexample :
    (((List.range 64).map (fun n => snakePos (n + 1))).count (1, 1)) = 2 := by
  decide

/-- Claim C2, amended: the zig-zag traversal has period 56, not 64: the 56
pixels lit by the first 56 advances are pairwise distinct, the state after
advance n+57 always equals the state after advance n+1, and the cell
(primary, secondary) = (0, 1) is never the lit pixel after any advance. -/
theorem c2_snake_traversal :
    (((List.range 56).map (fun n => snakePos (n + 1))).Nodup) ∧
    (∀ n, snakeIter (n + 57) = snakeIter (n + 1)) ∧
    (∀ n, snakePos (n + 1) ≠ (0, 1)) := by
  have hfin : ∀ r : Fin 56, snakePos (r.val + 1) ≠ (0, 1) := by decide
  refine ⟨by decide, ?_, ?_⟩
  · intro n
    exact iterate_add_periodic nmSnake.next (nmSnake.new (RGB8.new 255 0 0))
      57 1 (by decide) n
  · intro n
    have h := iterate_cycle nmSnake.next (nmSnake.new (RGB8.new 255 0 0))
      56 1 (by decide) (n / 56) (n % 56)
    have e : n + 1 = 56 * (n / 56) + n % 56 + 1 := by omega
    have h2 : snakePos (n + 1) = snakePos (n % 56 + 1) := by
      unfold snakePos snakeIter
      rw [e, h]
    rw [h2]
    exact hfin ⟨n % 56, Nat.mod_lt _ (by norm_num)⟩

/-- Claim C9, counterexample: the 8th advance sets secondary to 2, not 1
(secondary was already advanced to 1 by the very first advance, because
primary = 0 is itself a boundary). -/
theorem c9_counterexample :
    (snakeIter 8).col = 2 ∧ ¬((snakeIter 8).col = 1) := by decide

/-- Claim C9, amended: starting from (primary = 0, secondary = 0,
ascending), after 7 advances primary = 7 with direction still ascending;
the 8th advance flips the direction to descending, moves primary to 6 and
sets secondary to 2. -/
theorem c9_snake_boundary :
    (snakeIter 7).row = 7 ∧ (snakeIter 7).delta = true ∧
    (snakeIter 8).delta = false ∧ (snakeIter 8).row = 6 ∧
    (snakeIter 8).col = 2 := by decide

/-- Claim C10: the boundary check runs before the move, and the initial
primary = 0 is a boundary, so the first advance increments secondary as
well as primary: the state after one advance is (primary, secondary) =
(1, 1), and the first rendered frame lights exactly linear index
1*WIDTH + 1 = 9 — cell (0, 0) is dark. -/
theorem c10_snake_first_advance :
    (snakeIter 1).row = 1 ∧ (snakeIter 1).col = 1 ∧
    (snakeIter 1).strip = (List.range NUM_PX).map
      (fun idx => if idx = 1 * WIDTH + 1 then RGB8.new 255 0 0
                  else RGB8.new 0 0 0) := by
  decide

/-! ## Claim about the Sine generator's table update (C1) -/

/-- Claim C1, code bug: the in-place shift `sin[i] = sin[(i+1) % 14]` of
nmSin::next reads the already-overwritten entry 0 when i = 13, so one
advance turns the table [4,6,7,8,8,7,6,4,2,1,0,0,1,2] into
[6,7,8,8,7,6,4,2,1,0,0,1,2,6]: the value 4 at index 0 is lost and 6 is
duplicated, so the multiset of table values (count of 4 drops from 2 to 1)
is not preserved, contradicting the spec's never-mutated / pure-rotation
invariant. -/
theorem c1_sin_table_mutated :
    (sinIter 0).sin = sinInitTable ∧
    (sinIter 1).sin = [6, 7, 8, 8, 7, 6, 4, 2, 1, 0, 0, 1, 2, 6] ∧
    (sinIter 0).sin.count 4 = 2 ∧ (sinIter 1).sin.count 4 = 1 ∧
    ¬((sinIter 1).sin.count 4 = (sinIter 0).sin.count 4) := by decide

/-! ## Claim about the Wave dimming arithmetic (C8) -/

/-- Claim C8, counterexample: no 8-bit channel value can make the dimming
subtraction underflow — for every c < 256 and i < 7,
c / 7 * (i+1) never exceeds c, because integer division rounds down
(c/7 * (i+1) ≤ c/7 * 7 ≤ c). -/
theorem c8_counterexample :
    ¬ ∃ c : Fin 256, ∃ i : Fin 7,
      c.val < NUM_SHADOWS * (i.val + 1) ∧
      c.val < c.val / NUM_SHADOWS * (i.val + 1) := by decide

/-- Claim C8, amended: for every 8-bit channel value c and every shadow
tier i in 0..7, the subtrahend c/7*(i+1) is at most c (no unsigned
underflow is possible), the wrapping evaluation of the dimming formula
coincides with the plain arithmetic value c - c/7*(i+1) + 1, and the
result stays within u8 range. -/
theorem c8_dimming_safe :
    ∀ c : Fin 256, ∀ i : Fin 7,
      c.val / NUM_SHADOWS * (i.val + 1) ≤ c.val ∧
      dimChannel c.val i.val = c.val - c.val / NUM_SHADOWS * (i.val + 1) + 1 ∧
      dimChannel c.val i.val ≤ 255 := by decide

/-! ## Claim about the Pulse generator (C3) -/

lemma list_map_const {α β : Type} (l : List α) (c : β) :
    l.map (fun _ => c) = List.replicate l.length c := by
  induction l with
  | nil => rfl
  | cons a t ih => simp [ih, List.replicate]

lemma nmPulse.next_strip (s : nmPulse) :
    (nmPulse.next s).strip = List.replicate s.strip.length
      (RGB8.new (nmPulse.next s).px_counter (nmPulse.next s).px_counter
        (nmPulse.next s).px_counter) :=
  list_map_const s.strip _

lemma pulseIter_strip_length : ∀ n, (pulseIter n).strip.length = 64 := by
  intro n
  induction n with
  | zero => decide
  | succ m ih =>
    have h : pulseIter (m + 1) = nmPulse.next (pulseIter m) :=
      Function.iterate_succ_apply' _ _ _
    rw [h, nmPulse.next_strip, List.length_replicate, ih]

/-- the counter value reached by the (n+1)-th advance of the controller's
Pulse generator: the triangle wave 1,2,...,10,9,8,...,2 of period 18
(position n % 18 in the period: ascent for 0..9, descent for 10..17). -/
def pulseCounterSeq (n : Nat) : Nat :=
  if n % 18 ≤ 9 then n % 18 + 1 else 19 - n % 18

lemma pulseIter_cycle (q r : Nat) :
    pulseIter (18 * q + r + 2) = pulseIter (r + 2) :=
  iterate_cycle nmPulse.next (nmPulse.new 10 1) 18 2 (by decide) q r

lemma pulseIter_counter (n : Nat) :
    (pulseIter (n + 1)).px_counter = pulseCounterSeq n := by
  cases n with
  | zero => decide
  | succ m =>
    have e : m + 1 + 1 = 18 * (m / 18) + m % 18 + 2 := by omega
    rw [e, pulseIter_cycle (m / 18) (m % 18)]
    have e2 : pulseCounterSeq (m + 1) = pulseCounterSeq (m % 18 + 1) := by
      unfold pulseCounterSeq
      have h18 : (m + 1) % 18 = (m % 18 + 1) % 18 := by omega
      rw [h18]
    rw [e2]
    exact (by decide : ∀ r : Fin 18,
        (pulseIter (r.val + 2)).px_counter = pulseCounterSeq (r.val + 1))
      ⟨m % 18, Nat.mod_lt _ (by norm_num)⟩

/-- Claim C3: with brightness_cap = 10 and step = 1 (the controller's
parameters), the counter after the (n+1)-th advance follows the triangle
wave 1,2,...,10,9,8,...,2,1,2,... given by pulseCounterSeq, the counter
never leaves [0, 10], and after every advance the whole 64-pixel grid is
the uniform gray (counter, counter, counter). -/
theorem c3_pulse_triangle :
    (∀ n, (pulseIter (n + 1)).px_counter = pulseCounterSeq n) ∧
    (∀ n, (pulseIter n).px_counter ≤ 10) ∧
    (∀ n, (pulseIter (n + 1)).strip =
      List.replicate 64 (RGB8.new (pulseIter (n + 1)).px_counter
        (pulseIter (n + 1)).px_counter (pulseIter (n + 1)).px_counter)) := by
  refine ⟨pulseIter_counter, ?_, ?_⟩
  · intro n
    cases n with
    | zero => decide
    | succ m =>
      rw [pulseIter_counter m]
      unfold pulseCounterSeq
      have h18 : m % 18 < 18 := Nat.mod_lt _ (by norm_num)
      split <;> omega
  · intro n
    have h : pulseIter (n + 1) = nmPulse.next (pulseIter n) :=
      Function.iterate_succ_apply' _ _ _
    rw [h, nmPulse.next_strip, pulseIter_strip_length n]

/-! ## Claim about the Wave generator (C5) -/

lemma waveIter_cycle (q r : Nat) :
    waveIter (8 * q + r + 1) = waveIter (r + 1) :=
  iterate_cycle nmWave.next (nmWave.new (RGB8.new 0 0 50)) 8 1 (by decide) q r

lemma waveIter_reduce (n : Nat) : waveIter (n + 1) = waveIter (n % 8 + 1) := by
  have e : n + 1 = 8 * (n / 8) + n % 8 + 1 := by omega
  rw [e, waveIter_cycle]

/-- Claim C5: at construction and after every advance, shadows[i] sits
(i+1) steps behind the lead modulo 8, so the lead line and the 7 shadow
lines occupy pairwise distinct secondary coordinates; after every advance
the rendered grid has exactly 8 pixels at the full base color (0,0,50) and
exactly 8 pixels at each of the 7 dimmed tier colors, whose brightness
(blue channel) is strictly decreasing in the tier index. -/
theorem c5_wave_invariants :
    (∀ n, ∀ i : Fin NUM_SHADOWS,
      (waveIter n).shadows.getD i.val 0 =
        ((waveIter n).row + 8 - (i.val + 1)) % 8) ∧
    (∀ n, (waveIter n).row ∉ (waveIter n).shadows ∧
      (waveIter n).shadows.Nodup) ∧
    (∀ n, ((waveIter (n + 1)).strip.count (RGB8.new 0 0 50)) = 8) ∧
    (∀ n, ∀ i : Fin NUM_SHADOWS,
      ((waveIter (n + 1)).strip.count (dimmedColor (RGB8.new 0 0 50) i.val)) = 8) ∧
    (((List.range NUM_SHADOWS).map
        (fun i => (dimmedColor (RGB8.new 0 0 50) i).b)).Pairwise (· > ·)) := by
  have hA : ∀ r : Fin 8, ∀ i : Fin NUM_SHADOWS,
      (waveIter (r.val + 1)).shadows.getD i.val 0 =
        ((waveIter (r.val + 1)).row + 8 - (i.val + 1)) % 8 := by decide
  have hB : ∀ r : Fin 8, (waveIter (r.val + 1)).row ∉ (waveIter (r.val + 1)).shadows ∧
      (waveIter (r.val + 1)).shadows.Nodup := by decide
  have hC : ∀ r : Fin 8, ((waveIter (r.val + 1)).strip.count (RGB8.new 0 0 50)) = 8 := by
    decide
  have hD : ∀ r : Fin 8, ∀ i : Fin NUM_SHADOWS,
      ((waveIter (r.val + 1)).strip.count (dimmedColor (RGB8.new 0 0 50) i.val)) = 8 := by
    decide
  refine ⟨?_, ?_, ?_, ?_, by decide⟩
  · intro n i
    cases n with
    | zero => revert i; decide
    | succ m =>
      rw [waveIter_reduce m]
      exact hA ⟨m % 8, Nat.mod_lt _ (by norm_num)⟩ i
  · intro n
    cases n with
    | zero => decide
    | succ m =>
      rw [waveIter_reduce m]
      exact hB ⟨m % 8, Nat.mod_lt _ (by norm_num)⟩
  · intro n
    rw [waveIter_reduce n]
    exact hC ⟨n % 8, Nat.mod_lt _ (by norm_num)⟩
  · intro n i
    rw [waveIter_reduce n]
    exact hD ⟨n % 8, Nat.mod_lt _ (by norm_num)⟩ i

/-! ## Claim about the mode selector (C6) -/

/-- Claim C6: applied from the sentinel mode 5, the reads (0.9,0,0),
(0,0,0), (0,0.9,0) drive the mode through 0, 0, 2 (the second read changes
nothing: sticky); and in general a read inside the threshold band leaves
the mode unchanged, x above/below the threshold forces mode 0/1 regardless
of y (x is tested first), and within the x band y above/below the
threshold forces mode 2/3. -/
theorem c6_mode_selector :
    (updateMode 5 ⟨9/10, 0, 0⟩ = 0 ∧
     updateMode 0 ⟨0, 0, 0⟩ = 0 ∧
     updateMode 0 ⟨0, 9/10, 0⟩ = 2) ∧
    (∀ m (a : Vec3), -THRESH ≤ a.x → a.x ≤ THRESH → -THRESH ≤ a.y →
      a.y ≤ THRESH → updateMode m a = m) ∧
    (∀ m (a : Vec3), THRESH < a.x → updateMode m a = 0) ∧
    (∀ m (a : Vec3), a.x < -THRESH → updateMode m a = 1) ∧
    (∀ m (a : Vec3), -THRESH ≤ a.x → a.x ≤ THRESH → THRESH < a.y →
      updateMode m a = 2) ∧
    (∀ m (a : Vec3), -THRESH ≤ a.x → a.x ≤ THRESH → a.y < -THRESH →
      updateMode m a = 3) := by
  have hT : (0 : ℚ) < THRESH := by norm_num [THRESH]
  refine ⟨⟨?_, ?_, ?_⟩, ?_, ?_, ?_, ?_, ?_⟩
  · norm_num [updateMode, THRESH]
  · norm_num [updateMode, THRESH]
  · norm_num [updateMode, THRESH]
  · intro m a h1 h2 h3 h4
    simp only [updateMode]
    rw [if_neg (not_lt.mpr h2), if_neg (not_lt.mpr h1),
      if_neg (not_lt.mpr h4), if_neg (not_lt.mpr h3)]
  · intro m a h
    simp only [updateMode]
    rw [if_pos h]
  · intro m a h
    have hx : ¬(THRESH < a.x) := by rw [not_lt]; linarith
    simp only [updateMode]
    rw [if_neg hx, if_pos h]
  · intro m a h1 h2 h3
    simp only [updateMode]
    rw [if_neg (not_lt.mpr h2), if_neg (not_lt.mpr h1), if_pos h3]
  · intro m a h1 h2 h3
    have hy : ¬(THRESH < a.y) := by rw [not_lt]; linarith
    simp only [updateMode]
    rw [if_neg (not_lt.mpr h2), if_neg (not_lt.mpr h1), if_neg hy, if_pos h3]

theorem c6_witness :
    updateMode 7 ⟨0, 0, 0⟩ = 7 ∧ updateMode 9 ⟨1, 0, 0⟩ = 0 ∧
    updateMode 9 ⟨-1, 0, 0⟩ = 1 ∧ updateMode 9 ⟨0, 1, 0⟩ = 2 ∧
    updateMode 9 ⟨0, -1, 0⟩ = 3 :=
  ⟨c6_mode_selector.2.1 7 ⟨0, 0, 0⟩ (by norm_num [THRESH]) (by norm_num [THRESH])
      (by norm_num [THRESH]) (by norm_num [THRESH]),
   c6_mode_selector.2.2.1 9 ⟨1, 0, 0⟩ (by norm_num [THRESH]),
   c6_mode_selector.2.2.2.1 9 ⟨-1, 0, 0⟩ (by norm_num [THRESH]),
   c6_mode_selector.2.2.2.2.1 9 ⟨0, 1, 0⟩ (by norm_num [THRESH])
      (by norm_num [THRESH]) (by norm_num [THRESH]),
   c6_mode_selector.2.2.2.2.2 9 ⟨0, -1, 0⟩ (by norm_num [THRESH])
      (by norm_num [THRESH]) (by norm_num [THRESH])⟩

/-! ## Claim about the controller (C7) -/

lemma pulseIter_succ (k : Nat) : nmPulse.next (pulseIter k) = pulseIter (k + 1) :=
  (Function.iterate_succ_apply' _ _ _).symm

lemma snakeIter_succ (k : Nat) : nmSnake.next (snakeIter k) = snakeIter (k + 1) :=
  (Function.iterate_succ_apply' _ _ _).symm

lemma waveIter_succ (k : Nat) : nmWave.next (waveIter k) = waveIter (k + 1) :=
  (Function.iterate_succ_apply' _ _ _).symm

lemma sinIter_succ (k : Nat) : nmSin.next (sinIter k) = sinIter (k + 1) :=
  (Function.iterate_succ_apply' _ _ _).symm

/-- loop invariant: after n iterations the tick counter equals
(n-1) % 9 + 1 (9 at startup) and every generator has been advanced
exactly ceil(n/9) = (n+8)/9 times, whatever the reading stream was. -/
lemma controllerRun_invariant (inputs : Nat → Vec3) :
    ∀ n, (controllerRun inputs n).nticks = (if n = 0 then 9 else (n - 1) % 9 + 1) ∧
      (controllerRun inputs n).pulse = pulseIter ((n + 8) / 9) ∧
      (controllerRun inputs n).snake = snakeIter ((n + 8) / 9) ∧
      (controllerRun inputs n).wave = waveIter ((n + 8) / 9) ∧
      (controllerRun inputs n).sinGen = sinIter ((n + 8) / 9) := by
  intro n
  induction n with
  | zero => exact ⟨rfl, rfl, rfl, rfl, rfl⟩
  | succ m ih =>
    obtain ⟨h0, h1, h2, h3, h4⟩ := ih
    by_cases hm : m % 9 = 0
    · have hnt : (controllerRun inputs m).nticks > 8 := by
        rw [h0]; split <;> omega
      have hstep : controllerRun inputs (m + 1) =
          ⟨0 + 1, updateMode (controllerRun inputs m).mode (inputs m),
           (controllerRun inputs m).pulse.next, (controllerRun inputs m).snake.next,
           (controllerRun inputs m).wave.next, (controllerRun inputs m).sinGen.next⟩ := by
        show (controllerStep _ _).1 = _
        simp only [controllerStep]
        rw [if_pos hnt]
      have hdiv : (m + 1 + 8) / 9 = (m + 8) / 9 + 1 := by omega
      rw [hstep]
      refine ⟨?_, ?_, ?_, ?_, ?_⟩
      · show 0 + 1 = _
        rw [if_neg (Nat.succ_ne_zero m)]
        omega
      · show nmPulse.next (controllerRun inputs m).pulse = _
        rw [h1, hdiv, pulseIter_succ]
      · show nmSnake.next (controllerRun inputs m).snake = _
        rw [h2, hdiv, snakeIter_succ]
      · show nmWave.next (controllerRun inputs m).wave = _
        rw [h3, hdiv, waveIter_succ]
      · show nmSin.next (controllerRun inputs m).sinGen = _
        rw [h4, hdiv, sinIter_succ]
    · have hm0 : m ≠ 0 := by omega
      have hnt : ¬((controllerRun inputs m).nticks > 8) := by
        rw [h0, if_neg hm0]
        omega
      have hstep : controllerRun inputs (m + 1) =
          ⟨(controllerRun inputs m).nticks + 1,
           updateMode (controllerRun inputs m).mode (inputs m),
           (controllerRun inputs m).pulse, (controllerRun inputs m).snake,
           (controllerRun inputs m).wave, (controllerRun inputs m).sinGen⟩ := by
        show (controllerStep _ _).1 = _
        simp only [controllerStep]
        rw [if_neg hnt]
      have hdiv : (m + 1 + 8) / 9 = (m + 8) / 9 := by omega
      rw [hstep]
      refine ⟨?_, ?_, ?_, ?_, ?_⟩
      · show (controllerRun inputs m).nticks + 1 = _
        rw [h0, if_neg hm0, if_neg (Nat.succ_ne_zero m)]
        omega
      · show (controllerRun inputs m).pulse = _
        rw [h1, hdiv]
      · show (controllerRun inputs m).snake = _
        rw [h2, hdiv]
      · show (controllerRun inputs m).wave = _
        rw [h3, hdiv]
      · show (controllerRun inputs m).sinGen = _
        rw [h4, hdiv]

/-- Claim C7: the mode is updated from the reading on every iteration;
a frame is written exactly on iterations 1, 10, 19, ... (n % 9 = 0 for the
0-based index n), and on those iterations all four generators are advanced
once — so after n iterations each generator has been advanced ceil(n/9)
times regardless of the reading stream — before the frame of the (new)
mode's generator (an all-dark frame for a mode outside 0..3) is selected
and emitted. -/
theorem c7_controller_schedule (inputs : Nat → Vec3) (n : Nat) :
    ((controllerRun inputs (n + 1)).pulse = pulseIter (n / 9 + 1) ∧
     (controllerRun inputs (n + 1)).snake = snakeIter (n / 9 + 1) ∧
     (controllerRun inputs (n + 1)).wave = waveIter (n / 9 + 1) ∧
     (controllerRun inputs (n + 1)).sinGen = sinIter (n / 9 + 1)) ∧
    ((controllerRun inputs (n + 1)).mode =
      updateMode (controllerRun inputs n).mode (inputs n)) ∧
    (controllerEmit inputs n =
      if n % 9 = 0 then
        some (selectFrame (updateMode (controllerRun inputs n).mode (inputs n))
          (pulseIter (n / 9 + 1)) (snakeIter (n / 9 + 1))
          (waveIter (n / 9 + 1)) (sinIter (n / 9 + 1)))
      else none) := by
  obtain ⟨h0, h1, h2, h3, h4⟩ := controllerRun_invariant inputs n
  obtain ⟨g0, g1, g2, g3, g4⟩ := controllerRun_invariant inputs (n + 1)
  have hdiv : (n + 1 + 8) / 9 = n / 9 + 1 := by omega
  refine ⟨⟨?_, ?_, ?_, ?_⟩, ?_, ?_⟩
  · rw [g1, hdiv]
  · rw [g2, hdiv]
  · rw [g3, hdiv]
  · rw [g4, hdiv]
  · show (controllerStep _ _).1.mode = _
    simp only [controllerStep]
    split <;> rfl
  · by_cases hn : n % 9 = 0
    · have hnt : (controllerRun inputs n).nticks > 8 := by
        rw [h0]; split <;> omega
      have ep : (n + 8) / 9 = n / 9 := by omega
      rw [if_pos hn]
      show (controllerStep _ _).2 = _
      simp only [controllerStep]
      rw [if_pos hnt, h1, h2, h3, h4, ep, pulseIter_succ, snakeIter_succ,
        waveIter_succ, sinIter_succ]
    · have hn0 : n ≠ 0 := by omega
      have hnt : ¬((controllerRun inputs n).nticks > 8) := by
        rw [h0, if_neg hn0]
        omega
      rw [if_neg hn]
      show (controllerStep _ _).2 = _
      simp only [controllerStep]
      rw [if_neg hnt]

/-! ## Claim about the Sine generator's table construction (C4).
The f32 computation of nmSin::new is idealised over exact reals: every
sampled value lies at distance at least 0.09 from the nearest half-integer,
far beyond the error of micromath's f32 sine, so the rounded integers are
the ones the source computes. -/

/-- the value nmSin::new stores at table index i:
round(amplitude * sin(i * 2*pi/SIN_SIZE) + offset) with
amplitude = offset = HEIGHT/2. -/
noncomputable def sinSpecValue (i : Nat) : Int :=
  round ((HEIGHT : Real) / 2 * Real.sin ((i : Real) * (2 * Real.pi / (SIN_SIZE : Real)))
    + (HEIGHT : Real) / 2)

lemma sinSpecValue_eq (i : Nat) :
    sinSpecValue i = round ((4 : Real) * Real.sin ((i : Real) * (2 * Real.pi / 14)) + 4) := by
  norm_num [sinSpecValue, HEIGHT, SIN_SIZE, WIDTH]

lemma round_eq_of {x : Real} {v : Int} (h1 : (v : Real) - 1/2 ≤ x) (h2 : x < (v : Real) + 1/2) :
    round x = v := by
  rw [round_eq, Int.floor_eq_iff]
  constructor
  · linarith
  · linarith
lemma sin_pi_div_seven_bounds :
    (0.375 : ℝ) < Real.sin (Real.pi / 7) ∧ Real.sin (Real.pi / 7) < 0.625 := by
  have hpi1 : (3.1415 : ℝ) < Real.pi := Real.pi_gt_d4
  have hpi2 : Real.pi < 3.1416 := Real.pi_lt_d4
  set x := Real.pi / 7 with hxdef
  have hx1 : (0.4487 : ℝ) < x := by rw [hxdef]; linarith
  have hx2 : x < (0.449 : ℝ) := by rw [hxdef]; linarith
  have hx0 : (0 : ℝ) < x := by linarith
  have hxabs : |x| ≤ 1 := by rw [abs_of_pos hx0]; linarith
  have hb := Real.sin_bound hxabs
  rw [abs_of_pos hx0, abs_le] at hb
  obtain ⟨hb1, hb2⟩ := hb
  have hxsq : x^2 < (0.20161 : ℝ) := by nlinarith
  have hxsqlo : (0.20133 : ℝ) < x^2 := by nlinarith
  have hx3 : x^3 < (0.09053 : ℝ) := by
    nlinarith [mul_pos (show (0:ℝ) < (0.20161 : ℝ) - x^2 by linarith) hx0]
  have hx3lo : (0.0903 : ℝ) < x^3 := by
    nlinarith [mul_pos (show (0:ℝ) < x^2 - (0.20133 : ℝ) by linarith) hx0]
  have hx4 : x^4 < (0.04065 : ℝ) := by
    nlinarith [mul_pos (show (0:ℝ) < (0.09053 : ℝ) - x^3 by linarith) hx0]
  constructor
  · nlinarith
  · nlinarith

lemma sin_two_pi_div_seven_bounds :
    (0.625 : ℝ) < Real.sin (2 * Real.pi / 7) ∧ Real.sin (2 * Real.pi / 7) < 0.875 := by
  have hpi1 : (3.1415 : ℝ) < Real.pi := Real.pi_gt_d4
  have hpi2 : Real.pi < 3.1416 := Real.pi_lt_d4
  set x := 2 * Real.pi / 7 with hxdef
  have hx1 : (0.8975 : ℝ) < x := by rw [hxdef]; linarith
  have hx2 : x < (0.8977 : ℝ) := by rw [hxdef]; linarith
  have hx0 : (0 : ℝ) < x := by linarith
  have hxabs : |x| ≤ 1 := by rw [abs_of_pos hx0]; linarith
  have hb := Real.sin_bound hxabs
  rw [abs_of_pos hx0, abs_le] at hb
  obtain ⟨hb1, hb2⟩ := hb
  have hxsq : x^2 < (0.80587 : ℝ) := by nlinarith
  have hxsqlo : (0.80550 : ℝ) < x^2 := by nlinarith
  have hx3 : x^3 < (0.72344 : ℝ) := by
    nlinarith [mul_pos (show (0:ℝ) < (0.80587 : ℝ) - x^2 by linarith) hx0]
  have hx3lo : (0.72293 : ℝ) < x^3 := by
    nlinarith [mul_pos (show (0:ℝ) < x^2 - (0.80550 : ℝ) by linarith) hx0]
  have hx4 : x^4 < (0.64944 : ℝ) := by
    nlinarith [mul_pos (show (0:ℝ) < (0.72344 : ℝ) - x^3 by linarith) hx0]
  constructor
  · nlinarith
  · nlinarith

lemma sin_three_pi_div_seven_lb :
    (0.875 : ℝ) < Real.sin (3 * Real.pi / 7) := by
  have hpi1 : (3.1415 : ℝ) < Real.pi := Real.pi_gt_d4
  have hpi2 : Real.pi < 3.1416 := Real.pi_lt_d4
  have hid : Real.pi / 2 - 3 * Real.pi / 7 = Real.pi / 14 := by ring
  rw [← Real.cos_pi_div_two_sub, hid]
  set y := Real.pi / 14 with hydef
  have hy1 : (0.2243 : ℝ) < y := by rw [hydef]; linarith
  have hy2 : y < (0.2245 : ℝ) := by rw [hydef]; linarith
  have hy0 : (0 : ℝ) < y := by linarith
  have hyabs : |y| ≤ 1 := by rw [abs_of_pos hy0]; linarith
  have hb := Real.cos_bound hyabs
  rw [abs_of_pos hy0, abs_le] at hb
  obtain ⟨hb1, hb2⟩ := hb
  have hysq : y^2 < (0.0504 : ℝ) := by nlinarith
  have hy4 : y^4 < (0.00254 : ℝ) := by nlinarith
  nlinarith

/-- Claim C4: the table built at construction equals, entry for entry, the
14 integers round(4*sin(i*2*pi/14)+4) for i = 0..14, namely
[4,6,7,8,8,7,6,4,2,1,0,0,1,2], and every entry lies in [0, 8]. -/
theorem c4_sin_table_values :
    (∀ i : Fin 14, sinSpecValue i.val = (sinInitTable.getD i.val 0 : Int)) ∧
    (∀ i : Fin 14, sinInitTable.getD i.val 0 ≤ 8) := by
  constructor
  · intro i
    fin_cases i
    · show sinSpecValue 0 = (4 : Int)
      rw [sinSpecValue_eq]
      have harg : ((0 : Nat) : Real) * (2 * Real.pi / 14) = 0 := by push_cast; ring
      rw [harg, Real.sin_zero]
      apply round_eq_of <;> norm_num
    · show sinSpecValue 1 = (6 : Int)
      rw [sinSpecValue_eq]
      have harg : ((1 : Nat) : Real) * (2 * Real.pi / 14) = Real.pi / 7 := by push_cast; ring
      rw [harg]
      apply round_eq_of <;> push_cast <;> linarith [sin_pi_div_seven_bounds.1, sin_pi_div_seven_bounds.2]
    · show sinSpecValue 2 = (7 : Int)
      rw [sinSpecValue_eq]
      have harg : ((2 : Nat) : Real) * (2 * Real.pi / 14) = 2 * Real.pi / 7 := by push_cast; ring
      rw [harg]
      apply round_eq_of <;> push_cast <;> linarith [sin_two_pi_div_seven_bounds.1, sin_two_pi_div_seven_bounds.2]
    · show sinSpecValue 3 = (8 : Int)
      rw [sinSpecValue_eq]
      have harg : ((3 : Nat) : Real) * (2 * Real.pi / 14) = 3 * Real.pi / 7 := by push_cast; ring
      rw [harg]
      apply round_eq_of <;> push_cast <;> linarith [sin_three_pi_div_seven_lb, Real.sin_le_one (3 * Real.pi / 7)]
    · show sinSpecValue 4 = (8 : Int)
      rw [sinSpecValue_eq]
      have harg : ((4 : Nat) : Real) * (2 * Real.pi / 14) = Real.pi - 3 * Real.pi / 7 := by push_cast; ring
      rw [harg, Real.sin_pi_sub]
      apply round_eq_of <;> push_cast <;> linarith [sin_three_pi_div_seven_lb, Real.sin_le_one (3 * Real.pi / 7)]
    · show sinSpecValue 5 = (7 : Int)
      rw [sinSpecValue_eq]
      have harg : ((5 : Nat) : Real) * (2 * Real.pi / 14) = Real.pi - 2 * Real.pi / 7 := by push_cast; ring
      rw [harg, Real.sin_pi_sub]
      apply round_eq_of <;> push_cast <;> linarith [sin_two_pi_div_seven_bounds.1, sin_two_pi_div_seven_bounds.2]
    · show sinSpecValue 6 = (6 : Int)
      rw [sinSpecValue_eq]
      have harg : ((6 : Nat) : Real) * (2 * Real.pi / 14) = Real.pi - Real.pi / 7 := by push_cast; ring
      rw [harg, Real.sin_pi_sub]
      apply round_eq_of <;> push_cast <;> linarith [sin_pi_div_seven_bounds.1, sin_pi_div_seven_bounds.2]
    · show sinSpecValue 7 = (4 : Int)
      rw [sinSpecValue_eq]
      have harg : ((7 : Nat) : Real) * (2 * Real.pi / 14) = Real.pi := by push_cast; ring
      rw [harg, Real.sin_pi]
      apply round_eq_of <;> norm_num
    · show sinSpecValue 8 = (2 : Int)
      rw [sinSpecValue_eq]
      have harg : ((8 : Nat) : Real) * (2 * Real.pi / 14) = Real.pi / 7 + Real.pi := by push_cast; ring
      rw [harg, Real.sin_add_pi]
      apply round_eq_of <;> push_cast <;> linarith [sin_pi_div_seven_bounds.1, sin_pi_div_seven_bounds.2]
    · show sinSpecValue 9 = (1 : Int)
      rw [sinSpecValue_eq]
      have harg : ((9 : Nat) : Real) * (2 * Real.pi / 14) = 2 * Real.pi / 7 + Real.pi := by push_cast; ring
      rw [harg, Real.sin_add_pi]
      apply round_eq_of <;> push_cast <;> linarith [sin_two_pi_div_seven_bounds.1, sin_two_pi_div_seven_bounds.2]
    · show sinSpecValue 10 = (0 : Int)
      rw [sinSpecValue_eq]
      have harg : ((10 : Nat) : Real) * (2 * Real.pi / 14) = 3 * Real.pi / 7 + Real.pi := by push_cast; ring
      rw [harg, Real.sin_add_pi]
      apply round_eq_of <;> push_cast <;> linarith [sin_three_pi_div_seven_lb, Real.sin_le_one (3 * Real.pi / 7)]
    · show sinSpecValue 11 = (0 : Int)
      rw [sinSpecValue_eq]
      have harg : ((11 : Nat) : Real) * (2 * Real.pi / 14) = 2 * Real.pi - 3 * Real.pi / 7 := by push_cast; ring
      rw [harg, Real.sin_two_pi_sub]
      apply round_eq_of <;> push_cast <;> linarith [sin_three_pi_div_seven_lb, Real.sin_le_one (3 * Real.pi / 7)]
    · show sinSpecValue 12 = (1 : Int)
      rw [sinSpecValue_eq]
      have harg : ((12 : Nat) : Real) * (2 * Real.pi / 14) = 2 * Real.pi - 2 * Real.pi / 7 := by push_cast; ring
      rw [harg, Real.sin_two_pi_sub]
      apply round_eq_of <;> push_cast <;> linarith [sin_two_pi_div_seven_bounds.1, sin_two_pi_div_seven_bounds.2]
    · show sinSpecValue 13 = (2 : Int)
      rw [sinSpecValue_eq]
      have harg : ((13 : Nat) : Real) * (2 * Real.pi / 14) = 2 * Real.pi - Real.pi / 7 := by push_cast; ring
      rw [harg, Real.sin_two_pi_sub]
      apply round_eq_of <;> push_cast <;> linarith [sin_pi_div_seven_bounds.1, sin_pi_div_seven_bounds.2]
  · decide
